import Mathlib

/-!
Verification of the pivot-compensated instancing core of the poster build
scripts (`assets/build/active-objects/build.py`, with the loader shared by
`assets/build/electrical_mechanical/build.py`).

The Python source is shallowly embedded: Blender objects, collections and
libraries become explicit records; the depsgraph-evaluated world matrix of an
object is carried as a field (`matrix_world`), which is exactly the value the
source reads through `obj.evaluated_get(depsgraph).matrix_world` once the
collection is linked into the scene.  Coordinates are rationals; Python string
operations on the ASCII names involved are modelled by character-list
functions.
-/

/-- Rational 3-vector, the embedding of `mathutils.Vector` values. -/
@[ext] structure V3 where
  x : ℚ
  y : ℚ
  z : ℚ
deriving DecidableEq, Repr

instance : Add V3 := ⟨fun a b => ⟨a.x + b.x, a.y + b.y, a.z + b.z⟩⟩

instance : Neg V3 := ⟨fun a => ⟨-a.x, -a.y, -a.z⟩⟩

instance : Zero V3 := ⟨⟨0, 0, 0⟩⟩

@[simp] theorem V3.add_x (a b : V3) : (a + b).x = a.x + b.x := rfl

@[simp] theorem V3.add_y (a b : V3) : (a + b).y = a.y + b.y := rfl

@[simp] theorem V3.add_z (a b : V3) : (a + b).z = a.z + b.z := rfl

@[simp] theorem V3.neg_x (a : V3) : (-a).x = -a.x := rfl

@[simp] theorem V3.neg_y (a : V3) : (-a).y = -a.y := rfl

@[simp] theorem V3.neg_z (a : V3) : (-a).z = -a.z := rfl

@[simp] theorem V3.zero_x : (0 : V3).x = 0 := rfl

@[simp] theorem V3.zero_y : (0 : V3).y = 0 := rfl

@[simp] theorem V3.zero_z : (0 : V3).z = 0 := rfl

/-- Componentwise scaling by a scalar on the right, `Vector * s` in the source. -/
def V3.smulr (v : V3) (c : ℚ) : V3 := ⟨v.x * c, v.y * c, v.z * c⟩

/-- Componentwise minimum, the accumulation step for `bb_min`. -/
def V3.cmin (a b : V3) : V3 := ⟨min a.x b.x, min a.y b.y, min a.z b.z⟩

/-- Componentwise maximum, the accumulation step for `bb_max`. -/
def V3.cmax (a b : V3) : V3 := ⟨max a.x b.x, max a.y b.y, max a.z b.z⟩

/-- Rational 3x3 matrix (the linear part of an object transform). -/
@[ext] structure M3 where
  a00 : ℚ
  a01 : ℚ
  a02 : ℚ
  a10 : ℚ
  a11 : ℚ
  a12 : ℚ
  a20 : ℚ
  a21 : ℚ
  a22 : ℚ
deriving DecidableEq, Repr

/-- Identity matrix. -/
def M3.id : M3 := ⟨1, 0, 0, 0, 1, 0, 0, 0, 1⟩

/-- Matrix product. -/
def M3.mul (A B : M3) : M3 :=
  ⟨A.a00 * B.a00 + A.a01 * B.a10 + A.a02 * B.a20,
   A.a00 * B.a01 + A.a01 * B.a11 + A.a02 * B.a21,
   A.a00 * B.a02 + A.a01 * B.a12 + A.a02 * B.a22,
   A.a10 * B.a00 + A.a11 * B.a10 + A.a12 * B.a20,
   A.a10 * B.a01 + A.a11 * B.a11 + A.a12 * B.a21,
   A.a10 * B.a02 + A.a11 * B.a12 + A.a12 * B.a22,
   A.a20 * B.a00 + A.a21 * B.a10 + A.a22 * B.a20,
   A.a20 * B.a01 + A.a21 * B.a11 + A.a22 * B.a21,
   A.a20 * B.a02 + A.a21 * B.a12 + A.a22 * B.a22⟩

/-- Matrix-vector product. -/
def M3.mulv (A : M3) (v : V3) : V3 :=
  ⟨A.a00 * v.x + A.a01 * v.y + A.a02 * v.z,
   A.a10 * v.x + A.a11 * v.y + A.a12 * v.z,
   A.a20 * v.x + A.a21 * v.y + A.a22 * v.z⟩

/-- Affine transform: a 4x4 object matrix in block form `[lin | tr; 0 | 1]`.
`tr` is exactly what `matrix_world.to_translation()` returns. -/
@[ext] structure Aff3 where
  lin : M3
  tr : V3
deriving DecidableEq, Repr

/-- Identity affine transform. -/
def Aff3.idA : Aff3 := ⟨M3.id, 0⟩

/-- Pure translation `T(t)`. -/
def Aff3.translate (t : V3) : Aff3 := ⟨M3.id, t⟩

/-- Pure linear transform (rotation, scale, or any product of them). -/
def Aff3.ofLin (M : M3) : Aff3 := ⟨M, 0⟩

/-- Application of an affine transform to a point, `matrix_world @ Vector(p)`. -/
def Aff3.app (A : Aff3) (p : V3) : V3 := A.lin.mulv p + A.tr

/-- Composition of affine transforms, matching 4x4 matrix multiplication:
`(A.comp B).app p = A.app (B.app p)`. -/
def Aff3.comp (A B : Aff3) : Aff3 := ⟨A.lin.mul B.lin, A.lin.mulv B.tr + A.tr⟩

theorem Aff3.comp_app (A B : Aff3) (p : V3) : (A.comp B).app p = A.app (B.app p) := by
  refine V3.ext ?_ ?_ ?_ <;>
    simp only [Aff3.comp, Aff3.app, M3.mul, M3.mulv, V3.add_x, V3.add_y, V3.add_z] <;> ring

theorem Aff3.comp_assoc (A B C : Aff3) :
    (A.comp B).comp C = A.comp (B.comp C) := by
  refine Aff3.ext ?_ ?_
  · refine M3.ext ?_ ?_ ?_ ?_ ?_ ?_ ?_ ?_ ?_ <;>
      simp only [Aff3.comp, M3.mul] <;> ring
  · refine V3.ext ?_ ?_ ?_ <;>
      simp only [Aff3.comp, M3.mul, M3.mulv, V3.add_x, V3.add_y, V3.add_z] <;> ring

/-!
Transform Composer (`instance_collection_pivoted`).

The source builds a chain of four empties, each parented with
`matrix_parent_inverse = Identity` so that a child's world matrix is
`parent.matrix_world @ child.matrix_local`, and `matrix_local` is
`T(location) @ R(rotation_euler) @ S(scale)`:

  PIV: location = loc,            rotation 0, scale 1   -> local T(loc)
  ROT: location 0, rotation, scale                      -> local R . S
  OFF: location = -anchor_offset, rotation 0, scale 1   -> local T(-anchor)
  INST: identity local transform, instances the collection.

The rotation-by-Euler-angles and the diagonal scale enter only through the
single linear matrix of the ROT link, so the theorem quantifies over the two
linear factors `R` and `S`, covering every rotation and every scale.
-/

/-- World transform of the `INST_<slot>` node of the chain built by
`instance_collection_pivoted`, as a function of the parent world transform,
the target location, the linear part `rotScale = R . S` of the ROT link, and
the resolved anchor offset. -/
def instance_chain_world (parent_world : Aff3) (loc : V3) (rotScale : M3)
    (anchor_offset : V3) : Aff3 :=
  let piv_world := parent_world.comp (Aff3.translate loc)
  let rot_world := piv_world.comp (Aff3.ofLin rotScale)
  let off_world := rot_world.comp (Aff3.translate (-anchor_offset))
  off_world.comp Aff3.idA

/-- C1. The placement chain built by `instance_collection_pivoted` composes to
`T(location) . R(rotation) . S(scale) . T(-anchor_offset)` under the parent
transform, and the image of the resolved anchor point under the composed
world transform is exactly the target location, for every rotation linear
part `R`, every scale linear part `S`, and every anchor offset: the anchor
never orbits. -/
theorem c1_anchor_invariance (parent_world : Aff3) (loc : V3) (R S : M3)
    (anchor_offset : V3) :
    instance_chain_world parent_world loc (R.mul S) anchor_offset
      = parent_world.comp ((Aff3.translate loc).comp ((Aff3.ofLin R).comp
          ((Aff3.ofLin S).comp (Aff3.translate (-anchor_offset)))))
    ∧ (instance_chain_world Aff3.idA loc (R.mul S) anchor_offset).app anchor_offset
        = loc := by
  constructor
  · refine Aff3.ext ?_ ?_
    · refine M3.ext ?_ ?_ ?_ ?_ ?_ ?_ ?_ ?_ ?_ <;>
        simp only [instance_chain_world, Aff3.comp, Aff3.translate, Aff3.ofLin, Aff3.idA,
          M3.id, M3.mul] <;> ring
    · refine V3.ext ?_ ?_ ?_ <;>
        simp only [instance_chain_world, Aff3.comp, Aff3.translate, Aff3.ofLin, Aff3.idA,
          M3.id, M3.mul, M3.mulv, V3.add_x, V3.add_y, V3.add_z, V3.neg_x, V3.neg_y,
          V3.neg_z, V3.zero_x, V3.zero_y, V3.zero_z] <;> ring
  · refine V3.ext ?_ ?_ ?_ <;>
      simp only [instance_chain_world, Aff3.comp, Aff3.translate, Aff3.ofLin, Aff3.idA,
        Aff3.app, M3.id, M3.mul, M3.mulv, V3.add_x, V3.add_y, V3.add_z, V3.neg_x,
        V3.neg_y, V3.neg_z, V3.zero_x, V3.zero_y, V3.zero_z] <;> ring

/-!
Python string helpers.  The names manipulated by the anchor machinery are
ASCII, for which these character-list functions agree with Python's `upper`,
`lower`, `startswith`, `endswith`, `in`, and lexicographic `sorted`.
-/

/-- Python truthiness of an optional string (`None` and `""` are falsy). -/
def py_truthy : Option String → Bool
  | none => false
  | some s => s != ""

/-- Python `a or b` on optional strings: keep `a` when truthy, else `b`. -/
def py_or (a b : Option String) : Option String := if py_truthy a then a else b

/-- Python `str.upper()` for ASCII strings. -/
def py_upper (s : String) : String := String.mk (s.toList.map Char.toUpper)

/-- Python `str.lower()` for ASCII strings. -/
def py_lower (s : String) : String := String.mk (s.toList.map Char.toLower)

/-- Whether the first list is an initial segment of the second. -/
def starts_chars : List Char → List Char → Bool
  | [], _ => true
  | _ :: _, [] => false
  | p :: ps, c :: cs => p == c && starts_chars ps cs

/-- Python `s.startswith(pre)`. -/
def py_starts_with (s pre : String) : Bool := starts_chars pre.toList s.toList

/-- Python `s.endswith(suf)`. -/
def py_ends_with (s suf : String) : Bool := starts_chars suf.toList.reverse s.toList.reverse

/-- Whether `pat` occurs as a contiguous sublist. -/
def has_sub_chars (pat : List Char) : List Char → Bool
  | [] => starts_chars pat []
  | l@(_ :: rest) => starts_chars pat l || has_sub_chars pat rest

/-- Python `pat in s` on strings. -/
def py_contains (s pat : String) : Bool := has_sub_chars pat.toList s.toList

/-- Lexicographic comparison by code points, as Python string `<=`. -/
def le_chars : List Char → List Char → Bool
  | [], _ => true
  | _ :: _, [] => false
  | a :: as, b :: bs =>
    if a.toNat < b.toNat then true
    else if b.toNat < a.toNat then false
    else le_chars as bs

/-- Stable insertion of a string into a sorted list. -/
def ins_sorted (a : String) : List String → List String
  | [] => [a]
  | b :: l => if le_chars a.toList b.toList then a :: b :: l else b :: ins_sorted a l

/-- Python `sorted` on strings (stable, lexicographic by code points). -/
def py_sorted : List String → List String
  | [] => []
  | a :: l => ins_sorted a (py_sorted l)

/-!
Data model for the anchor machinery of `assets/build/active-objects/build.py`.

A `BObj` is a Blender object as the build script observes it: its name, type,
containing collections, local placement fields, and its depsgraph-evaluated
world matrix together with its `bound_box` corners.  `matrix_world` plays the
role of `obj.evaluated_get(depsgraph).matrix_world` inside the temporary
scene link; `_eval_translation` reads its translation column.

`rotation_euler_deg` stores the three Euler angles in degrees; the source
stores the same angles in radians (`math.radians` of these values), an
injective rescaling that none of the verified claims inspect numerically.
-/

structure BObj where
  name : String
  otype : String
  parent_name : Option String
  location : V3
  rotation_euler_deg : V3
  scale : V3
  empty_display_type : String
  instance_type : String
  instance_coll : Option String
  coll_names : List String
  matrix_world : Aff3
  corners : List V3
deriving DecidableEq, Repr

/-- Default field values of a freshly created `bpy.data.objects.new(name, None)`. -/
def new_empty_bobj (name : String) : BObj :=
  { name := name, otype := "EMPTY", parent_name := none, location := 0,
    rotation_euler_deg := 0, scale := ⟨1, 1, 1⟩, empty_display_type := "PLAIN_AXES",
    instance_type := "NONE", instance_coll := none, coll_names := [],
    matrix_world := Aff3.idA, corners := [] }

/-- A collection as the anchor code reads it: `all_objects` is the recursive
object list, `objects` the direct one. -/
structure BColl where
  cname : String
  all_objects : List BObj
  objects : List BObj
deriving DecidableEq, Repr

/-- The keys of the per-component spec dict that `choose_anchor_offset` reads. -/
structure CompSpec where
  pivot_mode : Option String
  anchor_mode : Option String
  pivot : Option String
  anchor_object : Option String
  pivot_object : Option String
  anchor : Option String
deriving DecidableEq, Repr

/-- A spec dict with none of the anchor keys set. -/
def CompSpec.empty : CompSpec := ⟨none, none, none, none, none, none⟩

/-- The mode string before aliasing:
`str(spec.get("pivot_mode") or spec.get("anchor_mode") or spec.get("pivot") or "AUTO").upper()`. -/
def raw_pivot_mode (spec : CompSpec) : String :=
  match py_or (py_or spec.pivot_mode spec.anchor_mode) spec.pivot with
  | some s => if s != "" then py_upper s else "AUTO"
  | none => "AUTO"

/-- The normalized pivot mode: uppercased, with the `CENTER` and `MIN` aliases
rewritten to `BBOX_CENTER` and `BBOX_MIN`. -/
def normalized_pivot_mode (spec : CompSpec) : String :=
  let m := raw_pivot_mode spec
  if m = "CENTER" then "BBOX_CENTER" else if m = "MIN" then "BBOX_MIN" else m

/-- The anchor name:
`spec.get("anchor_object") or spec.get("pivot_object") or spec.get("anchor")`. -/
def anchor_name_of (spec : CompSpec) : Option String :=
  py_or (py_or spec.anchor_object spec.pivot_object) spec.anchor

/-- Strip one de-duplication suffix `.<digits>` from the end of a name
(the `_SUFFIX_RE.sub("", name)` of the source). -/
def base_name (s : String) : String :=
  let rev := s.toList.reverse
  let ds := rev.takeWhile Char.isDigit
  match rev.drop ds.length with
  | '.' :: rest => if ds.isEmpty then s else String.mk rest.reverse
  | _ => s

/-- The three-stage name lookup of `_find_object_by_base_name`: literal name,
then de-duplication-stripped name, then case-insensitive stripped name. -/
def find_object_by_base_name (objs : List BObj) (desired : String) : Option BObj :=
  if desired = "" then none
  else
    let desired_b := base_name desired
    let desired_l := py_lower desired_b
    match objs.find? (fun o => o.name == desired) with
    | some o => some o
    | none =>
      match objs.find? (fun o => base_name o.name == desired_b) with
      | some o => some o
      | none => objs.find? (fun o => py_lower (base_name o.name) == desired_l)

/-- Whether any containing collection's name starts with the rig prefix
(`_object_is_in_rig_collection`). -/
def object_is_in_rig_collection (o : BObj) : Bool :=
  o.coll_names.any (fun c => py_starts_with c "RIG_")

/-- The heuristic anchor score of `_score_anchor_candidate`. -/
def score_anchor_candidate (o : BObj) : Int :=
  let b := base_name o.name
  (if o.otype == "EMPTY" then 5 else 0)
  + (if object_is_in_rig_collection o then 100 else 0)
  + (if py_starts_with b "RIG_" then 20 else 0)
  + (if py_ends_with b "_ROOT" then 60 else 0)
  + (if py_contains b "ROOT" then 30 else 0)
  + (if b == "RIG_STAGE_ROOT" then 200 else 0)
  + (if b == "RIG_JOYSTICK_ROOT" then 180 else 0)
  + (if py_starts_with b "RIG_PCB_G_" then 150 else 0)
  + (if py_starts_with b "RIG_PCB_ROOT" then 160 else 0)

/-- Python `max(h :: t, key=score)`: the first element attaining the maximal
score (later elements replace the current best only on strictly greater score). -/
def py_max_by (score : BObj → Int) (h : BObj) (t : List BObj) : BObj :=
  t.foldl (fun b o => if score o > score b then o else b) h

/-- Object types contributing to the renderable bounding box. -/
def RENDERABLE_TYPES : List String := ["MESH", "CURVE", "SURFACE", "META", "FONT"]

/-- All evaluated world-space bound-box corner points of the renderable
objects of a collection, in iteration order. -/
def bbox_points (coll : BColl) : List V3 :=
  coll.all_objects.flatMap (fun o =>
    if RENDERABLE_TYPES.contains o.otype then o.corners.map (fun c => o.matrix_world.app c)
    else [])

/-- The evaluated axis-aligned bounding box of `compute_collection_bbox_eval`:
`none` when no renderable corner was found.  The source's accumulator starts
at plus and minus infinity with a `found` flag; folding an `Option` that seeds
both bounds with the first point is the same function on every input. -/
def compute_collection_bbox_eval (coll : BColl) : Option (V3 × V3) :=
  (bbox_points coll).foldl
    (fun acc v =>
      match acc with
      | none => some (v, v)
      | some (mn, mx) => some (mn.cmin v, mx.cmax v)) none

/-- Evaluated world translation of an object (`_eval_translation`). -/
def eval_translation (o : BObj) : V3 := o.matrix_world.tr

/-- The object list the anchor resolver works on: `coll.all_objects`, falling
back to `coll.objects` when the former is empty. -/
def objs_of (coll : BColl) : List BObj :=
  if coll.all_objects.isEmpty then coll.objects else coll.all_objects

/-- The explicit anchor object: only looked up when the anchor name is truthy;
first through `_find_object_by_base_name` over the group's objects, then as a
last resort through all of `bpy.data.objects` by stripped base name. -/
def explicit_obj_of (coll : BColl) (data_objects : List BObj) (spec : CompSpec) :
    Option BObj :=
  let anchor_name := anchor_name_of spec
  if py_truthy anchor_name then
    let nm := anchor_name.getD ""
    match find_object_by_base_name (objs_of coll) nm with
    | some o => some o
    | none => data_objects.find? (fun o => base_name o.name == base_name nm)
  else none

/-- The pre-picked best rig-ish empty: Python
`max(empties, key=_score_anchor_candidate)` when the group has empties. -/
def rig_best_of (coll : BColl) : Option BObj :=
  match (objs_of coll).filter (fun o => o.otype == "EMPTY") with
  | [] => none
  | h :: t => some (py_max_by score_anchor_candidate h t)

/-- The tail of the AUTO ladder: bounding-box center when the group has an
evaluated bounding box, else the origin. -/
def auto_bbox_tail (coll : BColl) : V3 × String :=
  match compute_collection_bbox_eval coll with
  | some (mn, mx) => ((mn + mx).smulr (1/2), "AUTO bbox_center")
  | none => ((0 : V3), "AUTO origin")

/-- Shallow embedding of `choose_anchor_offset`: returns the anchor offset in
collection coordinates together with the diagnostic reason string.  The
temporary scene link of the source only makes the evaluated matrices valid;
here those matrices are the `matrix_world` fields.  Any pivot mode other than
the five recognized ones falls through to the final AUTO block, exactly as in
the source's if-cascade. -/
def choose_anchor_offset (coll : BColl) (data_objects : List BObj)
    (spec : CompSpec) : V3 × String :=
  if normalized_pivot_mode spec = "OBJECT" then
    match explicit_obj_of coll data_objects spec with
    | none =>
      (0, "pivot_mode=OBJECT but anchor_object \x27"
            ++ (match anchor_name_of spec with | some s => s | none => "None")
            ++ "\x27 not found; using ORIGIN")
    | some o => (eval_translation o, "OBJECT:" ++ o.name)
  else if normalized_pivot_mode spec = "ORIGIN" then (0, "ORIGIN")
  else if normalized_pivot_mode spec = "BBOX_CENTER"
      ∨ normalized_pivot_mode spec = "BBOX_MIN" then
    match compute_collection_bbox_eval coll with
    | none => (0, normalized_pivot_mode spec ++ " bbox missing; using ORIGIN")
    | some (mn, mx) =>
      if normalized_pivot_mode spec = "BBOX_MIN" then (mn, "BBOX_MIN")
      else ((mn + mx).smulr (1/2), "BBOX_CENTER")
  else if normalized_pivot_mode spec = "RIG_ROOT" then
    match explicit_obj_of coll data_objects spec with
    | some o => (eval_translation o, "RIG_ROOT explicit:" ++ o.name)
    | none =>
      match rig_best_of coll with
      | some rb =>
        if score_anchor_candidate rb > 0 then
          (eval_translation rb, "RIG_ROOT auto:" ++ rb.name)
        else (0, "RIG_ROOT not found; using ORIGIN")
      | none => (0, "RIG_ROOT not found; using ORIGIN")
  else
    match explicit_obj_of coll data_objects spec with
    | some o => (eval_translation o, "AUTO explicit:" ++ o.name)
    | none =>
      match rig_best_of coll with
      | some rb =>
        if score_anchor_candidate rb ≥ 100 then
          (eval_translation rb, "AUTO rig:" ++ rb.name)
        else auto_bbox_tail coll
      | none => auto_bbox_tail coll

/-!
C6: explicit anchor name lookup.
-/

theorem find?_some_of_exists {α} (l : List α) (p : α → Bool)
    (h : ∃ x ∈ l, p x = true) : ∃ a, l.find? p = some a ∧ p a = true := by
  have hs : (l.find? p).isSome := List.find?_isSome.mpr (by
    obtain ⟨x, hx, hp⟩ := h
    exact ⟨x, hx, hp⟩)
  obtain ⟨a, ha⟩ := Option.isSome_iff_exists.mp hs
  exact ⟨a, ha, List.find?_some ha⟩

theorem find?_none_of_all {α} (l : List α) (p : α → Bool)
    (h : ∀ x ∈ l, p x = false) : l.find? p = none :=
  List.find?_eq_none.mpr (fun x hx => by simp [h x hx])

/-- C6. Explicit anchor lookup tries, in order: literal name equality; then
de-duplication-suffix-stripped equality; then case-insensitive stripped
equality; and when `_find_object_by_base_name` finds nothing in the group,
`choose_anchor_offset` falls back to a whole-scene search by stripped base
name.  In particular a literal match (such as a node literally named `Foo`
next to `Foo.001`) always wins. -/
theorem c6_explicit_anchor_lookup (objs dobjs : List BObj) (desired : String)
    (hne : desired ≠ "") :
    ((∃ o ∈ objs, o.name = desired) →
      ∃ o, find_object_by_base_name objs desired = some o ∧ o.name = desired)
  ∧ ((∀ o ∈ objs, o.name ≠ desired) →
     (∃ o ∈ objs, base_name o.name = base_name desired) →
      ∃ o, find_object_by_base_name objs desired = some o ∧
        base_name o.name = base_name desired)
  ∧ ((∀ o ∈ objs, o.name ≠ desired) →
     (∀ o ∈ objs, base_name o.name ≠ base_name desired) →
     (∃ o ∈ objs, py_lower (base_name o.name) = py_lower (base_name desired)) →
      ∃ o, find_object_by_base_name objs desired = some o ∧
        py_lower (base_name o.name) = py_lower (base_name desired))
  ∧ ((∀ o ∈ objs, py_lower (base_name o.name) ≠ py_lower (base_name desired)) →
      find_object_by_base_name objs desired = none)
  ∧ (∀ coll spec, anchor_name_of spec = some desired →
      find_object_by_base_name (objs_of coll) desired = none →
      explicit_obj_of coll dobjs spec
        = dobjs.find? (fun o => base_name o.name == base_name desired)) := by
  refine ⟨?_, ?_, ?_, ?_, ?_⟩
  · intro hex
    obtain ⟨o, ho, hp⟩ := find?_some_of_exists objs (fun o => o.name == desired) (by
      obtain ⟨x, hx, hp⟩ := hex
      exact ⟨x, hx, by simp [hp]⟩)
    refine ⟨o, ?_, by simpa using hp⟩
    simp [find_object_by_base_name, if_neg hne, ho]
  · intro hall hex
    have h1 : objs.find? (fun o => o.name == desired) = none :=
      find?_none_of_all _ _ (fun x hx => by simp [hall x hx])
    obtain ⟨o, ho, hp⟩ := find?_some_of_exists objs
        (fun o => base_name o.name == base_name desired) (by
      obtain ⟨x, hx, hp⟩ := hex
      exact ⟨x, hx, by simp [hp]⟩)
    refine ⟨o, ?_, by simpa using hp⟩
    simp [find_object_by_base_name, if_neg hne, h1, ho]
  · intro hall1 hall2 hex
    have h1 : objs.find? (fun o => o.name == desired) = none :=
      find?_none_of_all _ _ (fun x hx => by simp [hall1 x hx])
    have h2 : objs.find? (fun o => base_name o.name == base_name desired) = none :=
      find?_none_of_all _ _ (fun x hx => by simp [hall2 x hx])
    obtain ⟨o, ho, hp⟩ := find?_some_of_exists objs
        (fun o => py_lower (base_name o.name) == py_lower (base_name desired)) (by
      obtain ⟨x, hx, hp⟩ := hex
      exact ⟨x, hx, by simp [hp]⟩)
    refine ⟨o, ?_, by simpa using hp⟩
    simp [find_object_by_base_name, if_neg hne, h1, h2, ho]
  · intro hall
    have hname : ∀ o ∈ objs, o.name ≠ desired := by
      intro o ho hc
      exact hall o ho (by rw [hc])
    have hbase : ∀ o ∈ objs, base_name o.name ≠ base_name desired := by
      intro o ho hc
      exact hall o ho (by rw [hc])
    have h1 : objs.find? (fun o => o.name == desired) = none :=
      find?_none_of_all _ _ (fun x hx => by simp [hname x hx])
    have h2 : objs.find? (fun o => base_name o.name == base_name desired) = none :=
      find?_none_of_all _ _ (fun x hx => by simp [hbase x hx])
    have h3 : objs.find?
        (fun o => py_lower (base_name o.name) == py_lower (base_name desired)) = none :=
      find?_none_of_all _ _ (fun x hx => by simp [hall x hx])
    simp [find_object_by_base_name, if_neg hne, h1, h2, h3]
  · intro coll spec hname hfind
    simp [explicit_obj_of, hname, py_truthy, hne, hfind]

/-- Witness for C6: in a group containing `Foo` and `Foo.001`, requesting
`Foo` resolves to a node literally named `Foo`. -/
theorem c6_witness :
    ∃ o, find_object_by_base_name
        [new_empty_bobj "Foo", new_empty_bobj "Foo.001"] "Foo" = some o
      ∧ o.name = "Foo" :=
  (c6_explicit_anchor_lookup [new_empty_bobj "Foo", new_empty_bobj "Foo.001"] []
    "Foo" (by decide)).1 ⟨new_empty_bobj "Foo", by decide, by decide⟩

/-!
C7: heuristic root scoring.
-/

theorem py_max_by_cons (f : BObj → Int) (h o : BObj) (t : List BObj) :
    py_max_by f h (o :: t) = py_max_by f (if f o > f h then o else h) t := rfl

/-- Python `max(h :: t, key=f)` returns an element of maximal key, and among
elements of maximal key the first encountered: the list splits as
`l1 ++ best :: l2` with every element of `l1` scoring strictly below `best`. -/
theorem py_max_by_first_argmax (f : BObj → Int) (h : BObj) (t : List BObj) :
    ∃ l1 l2, h :: t = l1 ++ py_max_by f h t :: l2
      ∧ (∀ x ∈ l1, f x < f (py_max_by f h t))
      ∧ (∀ x ∈ h :: t, f x ≤ f (py_max_by f h t)) := by
  induction t generalizing h with
  | nil =>
    refine ⟨[], [], rfl, by simp, ?_⟩
    intro x hx
    have : x = h := by simpa [py_max_by] using hx
    simp [this, py_max_by]
  | cons o t ih =>
    rw [py_max_by_cons]
    by_cases hc : f o > f h
    · rw [if_pos hc]
      obtain ⟨l1, l2, heq, hlt, hle⟩ := ih o
      have hob : f o ≤ f (py_max_by f o t) := hle o (List.mem_cons_self o t)
      refine ⟨h :: l1, l2, ?_, ?_, ?_⟩
      · rw [List.cons_append, ← heq]
      · intro x hx
        rcases List.mem_cons.mp hx with hx | hx
        · exact hx ▸ lt_of_lt_of_le hc hob
        · exact hlt x hx
      · intro x hx
        rcases List.mem_cons.mp hx with hx | hx
        · exact hx ▸ le_of_lt (lt_of_lt_of_le hc hob)
        · exact hle x hx
    · rw [if_neg hc]
      have hohle : f o ≤ f h := le_of_not_lt hc
      obtain ⟨l1, l2, heq, hlt, hle⟩ := ih h
      have hhb : f h ≤ f (py_max_by f h t) := hle h (List.mem_cons_self h t)
      cases l1 with
      | nil =>
        rw [List.nil_append] at heq
        injection heq with h1 h2
        refine ⟨[], o :: l2, ?_, by simp, ?_⟩
        · rw [List.nil_append, ← h1, ← h2]
        · intro x hx
          rcases List.mem_cons.mp hx with hx | hx
          · exact hx ▸ hhb
          · rcases List.mem_cons.mp hx with hx | hx
            · exact hx ▸ le_trans hohle hhb
            · exact hle x (List.mem_cons_of_mem h hx)
      | cons a l1t =>
        rw [List.cons_append] at heq
        injection heq with h1 h2
        have hab : f h < f (py_max_by f h t) := by
          have ha := hlt a (List.mem_cons_self a l1t)
          rwa [← h1] at ha
        refine ⟨h :: o :: l1t, l2, ?_, ?_, ?_⟩
        · rw [List.cons_append, List.cons_append, ← h2]
        · intro x hx
          rcases List.mem_cons.mp hx with rfl | hx
          · exact hab
          · rcases List.mem_cons.mp hx with rfl | hx
            · exact lt_of_le_of_lt hohle hab
            · exact hlt x (List.mem_cons_of_mem a hx)
        · intro x hx
          rcases List.mem_cons.mp hx with rfl | hx
          · exact le_of_lt hab
          · rcases List.mem_cons.mp hx with rfl | hx
            · exact le_trans hohle hhb
            · exact hle x (List.mem_cons_of_mem h hx)

/-- The scoring rules as the specification enumerates them, as an explicit
pattern-to-weight table: `+5` marker empty, `+100` containing collection with
the rig prefix, `+20` own base name with the rig prefix, `+60` ends in
`_ROOT`, `+30` contains `ROOT`, and fixed bonuses for the enumerated
well-known root names. -/
def anchor_score_rule_table : List ((BObj → Bool) × Int) :=
  [(fun o => o.otype == "EMPTY", 5),
   (fun o => object_is_in_rig_collection o, 100),
   (fun o => py_starts_with (base_name o.name) "RIG_", 20),
   (fun o => py_ends_with (base_name o.name) "_ROOT", 60),
   (fun o => py_contains (base_name o.name) "ROOT", 30),
   (fun o => base_name o.name == "RIG_STAGE_ROOT", 200),
   (fun o => base_name o.name == "RIG_JOYSTICK_ROOT", 180),
   (fun o => py_starts_with (base_name o.name) "RIG_PCB_G_", 150),
   (fun o => py_starts_with (base_name o.name) "RIG_PCB_ROOT", 160)]

/-- Cumulative score of a candidate under the rule table. -/
def table_score (o : BObj) : Int :=
  (anchor_score_rule_table.map (fun r => if r.1 o then r.2 else 0)).sum

/-- C7. The heuristic score is exactly the cumulative rule table (with the
well-known-name bonuses all in the 150 to 200 range); the best-scoring empty
is picked with ties broken by first-encountered order; and in `RIG_ROOT` mode
with no explicit anchor the winning marker is used only when its score is
positive, the origin otherwise. -/
theorem c7_heuristic_scoring (coll : BColl) (dobjs : List BObj) (spec : CompSpec) :
    (∀ o : BObj, score_anchor_candidate o = table_score o)
  ∧ (∀ w ∈ ([200, 180, 150, 160] : List Int), 150 ≤ w ∧ w ≤ 200)
  ∧ (∀ h t, (objs_of coll).filter (fun o => o.otype == "EMPTY") = h :: t →
      rig_best_of coll = some (py_max_by score_anchor_candidate h t)
      ∧ ∃ l1 l2, h :: t = l1 ++ py_max_by score_anchor_candidate h t :: l2
          ∧ (∀ x ∈ l1,
              score_anchor_candidate x
                < score_anchor_candidate (py_max_by score_anchor_candidate h t))
          ∧ (∀ x ∈ h :: t,
              score_anchor_candidate x
                ≤ score_anchor_candidate (py_max_by score_anchor_candidate h t)))
  ∧ (normalized_pivot_mode spec = "RIG_ROOT" →
     py_truthy (anchor_name_of spec) = false →
      choose_anchor_offset coll dobjs spec =
        match rig_best_of coll with
        | some rb =>
          if score_anchor_candidate rb > 0 then
            (eval_translation rb, "RIG_ROOT auto:" ++ rb.name)
          else (0, "RIG_ROOT not found; using ORIGIN")
        | none => (0, "RIG_ROOT not found; using ORIGIN")) := by
  refine ⟨?_, by decide, ?_, ?_⟩
  · intro o
    simp only [score_anchor_candidate, table_score, anchor_score_rule_table,
      List.map_cons, List.map_nil, List.sum_cons, List.sum_nil]
    ring
  · intro h t hft
    constructor
    · simp [rig_best_of, hft]
    · exact py_max_by_first_argmax score_anchor_candidate h t
  · intro hmode hanch
    have hexp : explicit_obj_of coll dobjs spec = none := by
      simp [explicit_obj_of, hanch]
    simp [choose_anchor_offset, hmode, hexp]

/-- Concrete C7 spec: `RIG_ROOT` mode, no anchor name. -/
def c7_spec : CompSpec := ⟨some "RIG_ROOT", none, none, none, none, none⟩

/-- Concrete C7 group: one marker empty named `RIG_STAGE_ROOT` inside a
rig-prefixed collection, evaluated at translation (1, 2, 3). -/
def c7_coll : BColl :=
  ⟨"G",
   [{ new_empty_bobj "RIG_STAGE_ROOT" with
       coll_names := ["RIG_demo"], matrix_world := Aff3.translate ⟨1, 2, 3⟩ }],
   []⟩

/-- Witness for C7: the rig-root marker wins and its evaluated translation is
returned with the heuristic-branch reason. -/
theorem c7_witness :
    choose_anchor_offset c7_coll [] c7_spec
      = (⟨1, 2, 3⟩, "RIG_ROOT auto:RIG_STAGE_ROOT") := by
  have h := (c7_heuristic_scoring c7_coll [] c7_spec).2.2.2 (by decide) (by decide)
  rw [h]
  decide

/-!
C8: bounding-box anchor modes.
-/

@[simp] theorem Aff3.idA_app (p : V3) : Aff3.idA.app p = p := by
  refine V3.ext ?_ ?_ ?_ <;>
    simp only [Aff3.idA, Aff3.app, M3.id, M3.mulv, V3.add_x, V3.add_y, V3.add_z,
      V3.zero_x, V3.zero_y, V3.zero_z] <;> ring

theorem bbox_points_nil_of_no_renderable (coll : BColl)
    (hall : ∀ o ∈ coll.all_objects, RENDERABLE_TYPES.contains o.otype = false) :
    bbox_points coll = [] := by
  unfold bbox_points
  rw [List.flatMap_eq_nil_iff]
  intro o ho
  have hnm : o.otype ∉ RENDERABLE_TYPES := by
    have h1 := hall o ho
    simpa using h1
  simp [hnm]

/-- C8. In the `BBOX_CENTER` and `BBOX_MIN` modes (including their `CENTER`
and `MIN` aliases, which normalize to them) the offset is the center,
respectively the min corner, of the evaluated world-space bounding box over
the renderable objects; and a group with no renderable geometry has no
bounding box, so those modes degrade to the origin offset with a reason
recording the fallback rather than failing. -/
theorem c8_bbox_modes (coll : BColl) (dobjs : List BObj) (spec : CompSpec) :
    (normalized_pivot_mode spec = "BBOX_CENTER" →
      choose_anchor_offset coll dobjs spec =
        match compute_collection_bbox_eval coll with
        | some (mn, mx) => ((mn + mx).smulr (1/2), "BBOX_CENTER")
        | none => (0, "BBOX_CENTER bbox missing; using ORIGIN"))
  ∧ (normalized_pivot_mode spec = "BBOX_MIN" →
      choose_anchor_offset coll dobjs spec =
        match compute_collection_bbox_eval coll with
        | some (mn, mx) => (mn, "BBOX_MIN")
        | none => (0, "BBOX_MIN bbox missing; using ORIGIN"))
  ∧ ((∀ o ∈ coll.all_objects, RENDERABLE_TYPES.contains o.otype = false) →
      compute_collection_bbox_eval coll = none) := by
  refine ⟨?_, ?_, ?_⟩
  · intro hmode
    cases hbb : compute_collection_bbox_eval coll with
    | none => simp [choose_anchor_offset, hmode, hbb]
    | some p =>
      obtain ⟨mn, mx⟩ := p
      simp [choose_anchor_offset, hmode, hbb]
  · intro hmode
    cases hbb : compute_collection_bbox_eval coll with
    | none => simp [choose_anchor_offset, hmode, hbb]
    | some p =>
      obtain ⟨mn, mx⟩ := p
      simp [choose_anchor_offset, hmode, hbb]
  · intro hall
    simp [compute_collection_bbox_eval, bbox_points_nil_of_no_renderable coll hall]

/-- Concrete C8 group: one mesh whose evaluated bound box is the single
corner (2, 4, 6). -/
def c8_coll : BColl :=
  ⟨"G8", [{ new_empty_bobj "Box" with otype := "MESH", corners := [⟨2, 4, 6⟩] }], []⟩

/-- Concrete C8 spec, via the `CENTER` alias. -/
def c8_spec : CompSpec := ⟨some "CENTER", none, none, none, none, none⟩

/-- Witness for C8: the degenerate one-corner box has center (2, 4, 6) and
the bbox-branch reason is reported. -/
theorem c8_witness :
    choose_anchor_offset c8_coll [] c8_spec = (⟨2, 4, 6⟩, "BBOX_CENTER") := by
  have h := (c8_bbox_modes c8_coll [] c8_spec).1 (by decide)
  rw [h]
  have hbb : compute_collection_bbox_eval c8_coll = some (⟨2, 4, 6⟩, ⟨2, 4, 6⟩) := by
    simp [compute_collection_bbox_eval, bbox_points, c8_coll, new_empty_bobj,
      RENDERABLE_TYPES]
  rw [hbb]
  simp only [Prod.mk.injEq]
  refine ⟨?_, trivial⟩
  refine V3.ext ?_ ?_ ?_ <;> simp [V3.smulr] <;> norm_num

/-!
C2: the AUTO fallback ladder.
-/

/-- C2. With normalized mode `AUTO`, resolution follows exactly the ladder:
explicit anchor object if an anchor name was supplied and found; else the
best-scoring marker empty when it scores at least 100; else the bounding-box
center when the group has an evaluated bounding box; else the origin - and
each branch returns its own identifying reason string. -/
theorem c2_auto_ladder (coll : BColl) (dobjs : List BObj) (spec : CompSpec)
    (hmode : normalized_pivot_mode spec = "AUTO") :
    (∀ o, explicit_obj_of coll dobjs spec = some o →
      choose_anchor_offset coll dobjs spec
        = (eval_translation o, "AUTO explicit:" ++ o.name))
  ∧ (explicit_obj_of coll dobjs spec = none →
     ∀ rb, rig_best_of coll = some rb → 100 ≤ score_anchor_candidate rb →
      choose_anchor_offset coll dobjs spec
        = (eval_translation rb, "AUTO rig:" ++ rb.name))
  ∧ (explicit_obj_of coll dobjs spec = none →
     (∀ rb, rig_best_of coll = some rb → score_anchor_candidate rb < 100) →
     ∀ mn mx, compute_collection_bbox_eval coll = some (mn, mx) →
      choose_anchor_offset coll dobjs spec
        = ((mn + mx).smulr (1/2), "AUTO bbox_center"))
  ∧ (explicit_obj_of coll dobjs spec = none →
     (∀ rb, rig_best_of coll = some rb → score_anchor_candidate rb < 100) →
     compute_collection_bbox_eval coll = none →
      choose_anchor_offset coll dobjs spec = (0, "AUTO origin")) := by
  refine ⟨?_, ?_, ?_, ?_⟩
  · intro o ho
    simp [choose_anchor_offset, hmode, ho]
  · intro hexp rb hrb hge
    simp [choose_anchor_offset, hmode, hexp, hrb, hge]
  · intro hexp hlt mn mx hbb
    cases hr : rig_best_of coll with
    | none => simp [choose_anchor_offset, hmode, hexp, hr, auto_bbox_tail, hbb]
    | some rb =>
      have hn : ¬(100 ≤ score_anchor_candidate rb) := not_le.mpr (hlt rb hr)
      simp [choose_anchor_offset, hmode, hexp, hr, hn, auto_bbox_tail, hbb]
  · intro hexp hlt hbb
    cases hr : rig_best_of coll with
    | none => simp [choose_anchor_offset, hmode, hexp, hr, auto_bbox_tail, hbb]
    | some rb =>
      have hn : ¬(100 ≤ score_anchor_candidate rb) := not_le.mpr (hlt rb hr)
      simp [choose_anchor_offset, hmode, hexp, hr, hn, auto_bbox_tail, hbb]

/-- Witness for C2: an empty group with an empty spec walks the whole ladder
down to the origin branch. -/
theorem c2_witness :
    choose_anchor_offset ⟨"E", [], []⟩ [] CompSpec.empty = (0, "AUTO origin") := by
  have h := (c2_auto_ladder ⟨"E", [], []⟩ [] CompSpec.empty (by decide)).2.2.2
  refine h (by decide) ?_ (by decide)
  intro rb hrb
  have hn : rig_best_of (⟨"E", [], []⟩ : BColl) = none := by decide
  rw [hn] at hrb
  cases hrb

/-!
C10: unrecognized pivot modes fall through to AUTO.
-/

/-- The spec with its `pivot_mode` key overwritten. -/
def set_pivot_mode (spec : CompSpec) (m : String) : CompSpec :=
  { spec with pivot_mode := some m }

/-- C10. A spec whose normalized pivot mode is none of the five recognized
modes resolves to exactly the same offset and reason as the same spec with
mode `AUTO`: unrecognized modes silently behave as `AUTO`. -/
theorem c10_unrecognized_mode_behaves_as_auto (coll : BColl) (dobjs : List BObj)
    (spec : CompSpec)
    (h : normalized_pivot_mode spec
        ∉ (["OBJECT", "ORIGIN", "BBOX_CENTER", "BBOX_MIN", "RIG_ROOT"] : List String)) :
    choose_anchor_offset coll dobjs spec
      = choose_anchor_offset coll dobjs (set_pivot_mode spec "AUTO") := by
  have h1 : normalized_pivot_mode spec ≠ "OBJECT" := fun hc => h (by simp [hc])
  have h2 : normalized_pivot_mode spec ≠ "ORIGIN" := fun hc => h (by simp [hc])
  have h3 : normalized_pivot_mode spec ≠ "BBOX_CENTER" := fun hc => h (by simp [hc])
  have h4 : normalized_pivot_mode spec ≠ "BBOX_MIN" := fun hc => h (by simp [hc])
  have h5 : normalized_pivot_mode spec ≠ "RIG_ROOT" := fun hc => h (by simp [hc])
  have hm : normalized_pivot_mode (set_pivot_mode spec "AUTO") = "AUTO" := by
    simp [set_pivot_mode, normalized_pivot_mode, raw_pivot_mode, py_or, py_truthy, py_upper]
  have hexp : explicit_obj_of coll dobjs (set_pivot_mode spec "AUTO")
      = explicit_obj_of coll dobjs spec := by
    simp [set_pivot_mode, explicit_obj_of, anchor_name_of]
  simp [choose_anchor_offset, hm, hexp, h1, h2, h3, h4, h5]

/-- Witness for C10: the unrecognized mode string `WEIRD` resolves exactly as
`AUTO` does. -/
theorem c10_witness :
    choose_anchor_offset ⟨"E10", [], []⟩ []
        ⟨some "WEIRD", none, none, none, none, none⟩
      = choose_anchor_offset ⟨"E10", [], []⟩ []
          (set_pivot_mode ⟨some "WEIRD", none, none, none, none, none⟩ "AUTO") :=
  c10_unrecognized_mode_behaves_as_auto ⟨"E10", [], []⟩ []
    ⟨some "WEIRD", none, none, none, none, none⟩ (by decide)

/-!
Asset Library Loader (`load_collection_from_blend`, identical in the
active-objects and electrical-mechanical build scripts).

A `BlendLib` is an external `.blend` file as the loader observes it: whether
the path exists, whether enumerating its collections raises, the enumerated
collection names in library order, and the outcome of attempting to load any
single collection name (an exception, a missing name, or a collection with a
number of objects).  The per-process cache keyed by
`(path, requested name, link)` only replays the first call's result for an
identical key and is not modelled; every claim here is about a single call.
-/

/-- Outcome of `_load_collection_from_blend` for one candidate name. -/
inductive LoadRes where
  | raises
  | missing
  | loaded (n_objs : Nat)
deriving DecidableEq, Repr

/-- An external blend library as seen through `bpy.data.libraries.load`. -/
structure BlendLib where
  file_exists : Bool
  list_raises : Bool
  available : List String
  load : String → LoadRes

/-- Candidate loaded successfully (possibly with zero objects). -/
def load_ok : LoadRes → Bool
  | .loaded _ => true
  | _ => false

/-- Candidate loaded successfully with at least one object. -/
def load_nonempty : LoadRes → Bool
  | .loaded n => n > 0
  | _ => false

@[simp] theorem load_ok_loaded (n : Nat) : load_ok (.loaded n) = true := rfl

@[simp] theorem load_ok_raises : load_ok .raises = false := rfl

@[simp] theorem load_ok_missing : load_ok .missing = false := rfl

@[simp] theorem load_nonempty_loaded (n : Nat) :
    load_nonempty (.loaded n) = decide (n > 0) := rfl

@[simp] theorem load_nonempty_raises : load_nonempty .raises = false := rfl

@[simp] theorem load_nonempty_missing : load_nonempty .missing = false := rfl

/-- Append a name unless already present (the `if n not in candidates` steps). -/
def append_unique (cs : List String) (n : String) : List String :=
  if cs.contains n then cs else cs ++ [n]

/-- The candidate ladder: requested name if truthy, then truthy fallbacks in
order, then `EXPORT_`-prefixed available names lexicographically sorted, then
`Collection` when available, then every remaining available name. -/
def loader_candidates (collection_name : Option String)
    (fallback_names : List String) (available : List String) : List String :=
  let c1 : List String :=
    if py_truthy collection_name then [collection_name.getD ""] else []
  let c2 := c1 ++ fallback_names.filter (fun n => n != "")
  let export_like := available.filter (fun n => py_starts_with n "EXPORT_")
  let c3 := (py_sorted export_like).foldl append_unique c2
  let c4 :=
    if available.contains "Collection" && !(c3.contains "Collection")
    then c3 ++ ["Collection"] else c3
  available.foldl append_unique c4

/-- The selection loop: each loadable candidate overwrites `picked`; the loop
breaks at the first candidate with at least one object; a candidate that
raises or is missing is skipped. -/
def pick_candidates (lib : BlendLib) : List String → Option String → Option String
  | [], picked => picked
  | c :: rest, picked =>
    match lib.load c with
    | .raises => pick_candidates lib rest picked
    | .missing => pick_candidates lib rest picked
    | .loaded n => if n > 0 then some c else pick_candidates lib rest (some c)

/-- Shallow embedding of `load_collection_from_blend`, returning the picked
collection name (`None` maps to `none`). -/
def load_collection_from_blend (lib : BlendLib) (collection_name : Option String)
    (fallback_names : List String) : Option String :=
  if !lib.file_exists then none
  else if lib.list_raises then none
  else if lib.available.isEmpty then none
  else pick_candidates lib (loader_candidates collection_name fallback_names lib.available) none

/-- What `build_component` does with the loader result: a `none` group makes
the slot a warned no-op, otherwise the component is placed. -/
inductive SlotOutcome where
  | skipped
  | placed (name : String)
deriving DecidableEq, Repr

/-- The `if coll is None: warn(...); return` guard of `build_component`. -/
def build_component_outcome (r : Option String) : SlotOutcome :=
  match r with
  | none => .skipped
  | some n => .placed n

/-- The selection loop returns the first candidate loading non-empty; failing
that, the last loadable candidate; failing that, the accumulator. -/
theorem pick_candidates_spec (lib : BlendLib) (cs : List String) (acc : Option String) :
    pick_candidates lib cs acc =
      match cs.find? (fun c => load_nonempty (lib.load c)) with
      | some c => some c
      | none =>
        match cs.reverse.find? (fun c => load_ok (lib.load c)) with
        | some c => some c
        | none => acc := by
  induction cs generalizing acc with
  | nil => rfl
  | cons c rest ih =>
    cases h : lib.load c with
    | raises =>
      simp only [pick_candidates, h, ih]
      simp [List.find?_cons, List.reverse_cons, List.find?_append, h]
    | missing =>
      simp only [pick_candidates, h, ih]
      simp [List.find?_cons, List.reverse_cons, List.find?_append, h]
    | loaded n =>
      by_cases hn : n > 0
      · simp only [pick_candidates, h, if_pos hn]
        simp [List.find?_cons, h, hn]
      · have hn0 : load_nonempty (LoadRes.loaded n) = false := by simp [hn]
        simp only [pick_candidates, h, if_neg hn, ih]
        simp only [List.find?_cons, List.reverse_cons, List.find?_append, h, hn0,
          load_ok_loaded]
        cases rest.find? (fun c => load_nonempty (lib.load c)) with
        | some d => rfl
        | none =>
          cases hro : rest.reverse.find? (fun c => load_ok (lib.load c)) with
          | some d => simp [hro, Option.or]
          | none => simp [hro, Option.or]

/-- Concrete C3 library: two collections `A` and `B`, both loadable and both
empty (zero objects). -/
def c3_lib : BlendLib :=
  { file_exists := true, list_raises := false, available := ["A", "B"],
    load := fun _ => .loaded 0 }

/-- C3 counterexample: requesting `A` from a library where every loadable
candidate is empty returns the LAST loadable candidate `B`, not the first
loadable candidate `A` as the claim states - the selection loop overwrites
`picked` on every loadable candidate and only breaks on a non-empty one. -/
theorem c3_counterexample :
    load_collection_from_blend c3_lib (some "A") [] = some "B"
      ∧ (some "B" : Option String) ≠ some "A" := by
  constructor
  · decide
  · decide

/-- C3 (amended). When the file exists, enumeration succeeds and the library
is non-empty, the loader walks the candidate ladder (requested name, truthy
fallbacks in order, sorted `EXPORT_` names, `Collection`, remaining names)
and returns the first candidate that loads with at least one object; when
every loadable candidate is empty it returns the last loadable one; when no
candidate is loadable it returns `none`. -/
theorem c3_candidate_selection (lib : BlendLib) (collection_name : Option String)
    (fallback_names : List String)
    (hex : lib.file_exists = true) (hlr : lib.list_raises = false)
    (hav : lib.available ≠ []) :
    load_collection_from_blend lib collection_name fallback_names =
      (match (loader_candidates collection_name fallback_names lib.available).find?
          (fun c => load_nonempty (lib.load c)) with
       | some c => some c
       | none =>
         (loader_candidates collection_name fallback_names lib.available).reverse.find?
           (fun c => load_ok (lib.load c))) := by
  have hie : lib.available.isEmpty = false := by
    cases hA : lib.available with
    | nil => exact absurd hA hav
    | cons a l => rfl
  simp only [load_collection_from_blend, hex, hlr, hie, Bool.not_true, Bool.false_eq_true,
    if_false, if_true]
  rw [pick_candidates_spec]
  cases (loader_candidates collection_name fallback_names lib.available).find?
      (fun c => load_nonempty (lib.load c)) with
  | some d => rfl
  | none =>
    cases (loader_candidates collection_name fallback_names lib.available).reverse.find?
        (fun c => load_ok (lib.load c)) with
    | some d => rfl
    | none => rfl

/-- Witness for the amended C3: on the concrete two-empty-collection library
the characterization instantiates and reproduces the last-loadable pick. -/
theorem c3_amended_witness :
    load_collection_from_blend c3_lib (some "A") [] =
      (match (loader_candidates (some "A") [] c3_lib.available).find?
          (fun c => load_nonempty (c3_lib.load c)) with
       | some c => some c
       | none =>
         (loader_candidates (some "A") [] c3_lib.available).reverse.find?
           (fun c => load_ok (c3_lib.load c))) :=
  c3_candidate_selection c3_lib (some "A") [] rfl rfl (by decide)

/-!
C9: the loader is total and degrades instead of raising.
-/

/-- C9. A non-existent library path yields `none`; a library enumerating zero
collections yields `none`; a candidate whose load raises is skipped exactly
like a missing candidate, so the selection over any candidate list equals the
selection over the loadable candidates only; and `build_component` turns a
`none` group into a skipped slot instead of aborting. -/
theorem c9_loader_graceful (lib : BlendLib) (collection_name : Option String)
    (fallback_names : List String) :
    (lib.file_exists = false →
      load_collection_from_blend lib collection_name fallback_names = none)
  ∧ (lib.available = [] →
      load_collection_from_blend lib collection_name fallback_names = none)
  ∧ (∀ cs acc, pick_candidates lib cs acc
      = pick_candidates lib (cs.filter (fun c => load_ok (lib.load c))) acc)
  ∧ (∀ r : Option String,
      build_component_outcome r = SlotOutcome.skipped ↔ r = none) := by
  refine ⟨?_, ?_, ?_, ?_⟩
  · intro hfe
    simp [load_collection_from_blend, hfe]
  · intro hav
    cases hfe : lib.file_exists <;> cases hlr : lib.list_raises <;>
      simp [load_collection_from_blend, hfe, hlr, hav]
  · intro cs
    induction cs with
    | nil => intro acc; rfl
    | cons c rest ih =>
      intro acc
      cases h : lib.load c with
      | raises => simp [pick_candidates, h, List.filter_cons, ih]
      | missing => simp [pick_candidates, h, List.filter_cons, ih]
      | loaded n =>
        by_cases hn : n > 0
        · simp [pick_candidates, h, List.filter_cons, if_pos hn]
        · simp [pick_candidates, h, List.filter_cons, if_neg hn, ih]
  · intro r
    cases r with
    | none => simp [build_component_outcome]
    | some s => simp [build_component_outcome]

/-- Witness for C9: a missing file returns `none` without raising, and the
surrounding component build skips that slot. -/
theorem c9_witness :
    load_collection_from_blend ⟨false, false, ["A"], fun _ => .loaded 3⟩ (some "A") [] = none
    ∧ build_component_outcome
        (load_collection_from_blend ⟨false, false, ["A"], fun _ => .loaded 3⟩ (some "A") [])
        = SlotOutcome.skipped := by
  have h1 := (c9_loader_graceful ⟨false, false, ["A"], fun _ => .loaded 3⟩ (some "A") []).1 rfl
  have h2 := ((c9_loader_graceful ⟨false, false, ["A"], fun _ => .loaded 3⟩ (some "A") []).2.2.2
    (load_collection_from_blend ⟨false, false, ["A"], fun _ => .loaded 3⟩ (some "A") [])).mpr h1
  exact ⟨h1, h2⟩

/-!
Evaluation Context Bridge (`_TempCollectionLink`).

The scene's collection graph is modelled as the set of collection datablocks
plus the parent-child links between them; the scene root collection is the
distinguished name `SCENE_ROOT`.  Every Blender call the context manager
wraps in `try/except` is modelled as a total step that either performs its
effect or, when the corresponding failure flag is set, leaves the graph
unchanged - which is exactly what `except Exception: pass` does.  The
viewport/render hiding and the depsgraph update do not alter the collection
graph and are not modelled.  `__exit__` runs both on normal return and on an
exception raised by the body (Python context-manager semantics), so the
embedded `with` form applies the cleanup unconditionally.
-/

/-- The scene's collection datablocks and child links. -/
structure CollGraph where
  datablocks : List String
  links : List (String × String)
deriving DecidableEq, Repr

/-- The scene root collection (`bpy.context.scene.collection`). -/
def SCENE_ROOT : String := "SCENE_ROOT"

/-- Which of the five wrapped Blender calls raise in a given run. -/
structure LinkFailures where
  link_helper_fails : Bool
  link_child_fails : Bool
  unlink_child_fails : Bool
  unlink_helper_fails : Bool
  remove_fails : Bool
deriving DecidableEq, Repr

/-- `parent.children.link(child)`. -/
def add_link (g : CollGraph) (p c : String) : CollGraph :=
  { g with links := g.links ++ [(p, c)] }

/-- `parent.children.unlink(child)`. -/
def remove_link (g : CollGraph) (p c : String) : CollGraph :=
  { g with links := g.links.erase (p, c) }

/-- `bpy.data.collections.remove(helper)`: the datablock disappears and so
does every link it participates in. -/
def remove_datablock (g : CollGraph) (n : String) : CollGraph :=
  { datablocks := g.datablocks.erase n,
    links := g.links.filter (fun pc => pc.1 != n && pc.2 != n) }

/-- `did_link_child` as recorded by `__enter__`: true iff the link call did
not raise. -/
def did_link_child_of (f : LinkFailures) : Bool := !f.link_child_fails

/-- `did_link_helper` as recorded by `__enter__`. -/
def did_link_helper_of (f : LinkFailures) : Bool := !f.link_helper_fails

/-- `__enter__`: create the helper datablock, link it under the scene root,
link the target collection under the helper - each link step best-effort. -/
def temp_link_enter (g : CollGraph) (coll helper : String) (f : LinkFailures) :
    CollGraph :=
  let g1 : CollGraph := { g with datablocks := g.datablocks ++ [helper] }
  let g2 := if f.link_helper_fails then g1 else add_link g1 SCENE_ROOT helper
  if f.link_child_fails then g2 else add_link g2 helper coll

/-- First cleanup step of `__exit__`: unlink the group from the helper, only
if it had been linked, best-effort. -/
def exit_unlink_child (g : CollGraph) (coll helper : String) (f : LinkFailures) :
    CollGraph :=
  if did_link_child_of f && !f.unlink_child_fails then remove_link g helper coll else g

/-- Second cleanup step of `__exit__`: unlink the helper from the scene root,
only if it had been linked, best-effort, regardless of the first step. -/
def exit_unlink_helper (g : CollGraph) (helper : String) (f : LinkFailures) :
    CollGraph :=
  if did_link_helper_of f && !f.unlink_helper_fails then remove_link g SCENE_ROOT helper
  else g

/-- Third cleanup step of `__exit__`: delete the helper datablock,
best-effort, regardless of the first two steps. -/
def exit_remove_helper (g : CollGraph) (helper : String) (f : LinkFailures) :
    CollGraph :=
  if f.remove_fails then g else remove_datablock g helper

/-- `__exit__`: the three cleanup steps composed unconditionally, in order. -/
def temp_link_exit (g : CollGraph) (coll helper : String) (f : LinkFailures) :
    CollGraph :=
  exit_remove_helper (exit_unlink_helper (exit_unlink_child g coll helper f) helper f)
    helper f

/-- The whole `with _TempCollectionLink(coll)` block: enter, run the body
(which may raise, `body_raises`), then exit on every path. -/
def with_temp_collection_link (g : CollGraph) (coll helper : String)
    (f : LinkFailures) (body_raises : Bool) : CollGraph :=
  temp_link_exit (temp_link_enter g coll helper f) coll helper f

theorem temp_link_enter_datablocks (g : CollGraph) (coll helper : String)
    (f : LinkFailures) :
    (temp_link_enter g coll helper f).datablocks = g.datablocks ++ [helper] := by
  simp only [temp_link_enter, add_link]
  cases f.link_helper_fails <;> cases f.link_child_fails <;> rfl

theorem unlinks_preserve_datablocks (g : CollGraph) (coll helper : String)
    (f : LinkFailures) :
    (exit_unlink_helper (exit_unlink_child g coll helper f) helper f).datablocks
      = g.datablocks := by
  simp only [exit_unlink_child, exit_unlink_helper, remove_link]
  cases did_link_child_of f && !f.unlink_child_fails <;>
    cases did_link_helper_of f && !f.unlink_helper_fails <;> rfl

/-- C4. On every exit path of the evaluation context (the cleanup is the same
function of the entered graph whether or not the body raised), the three
cleanup steps run unconditionally in order; whatever combination of link and
unlink steps failed, a successful delete removes the scratch helper
datablock and every link touching it; and when no step fails the collection
graph is restored exactly to its state before the context opened. -/
theorem c4_scratch_cleanup (g : CollGraph) (coll helper : String) (f : LinkFailures)
    (hdb : helper ∉ g.datablocks)
    (hlk : ∀ pc ∈ g.links, pc.1 ≠ helper ∧ pc.2 ≠ helper)
    (hhr : helper ≠ SCENE_ROOT) (hhc : helper ≠ coll) :
    (with_temp_collection_link g coll helper f true
      = with_temp_collection_link g coll helper f false)
  ∧ (f.remove_fails = false →
      helper ∉ (with_temp_collection_link g coll helper f true).datablocks
      ∧ ∀ pc ∈ (with_temp_collection_link g coll helper f true).links,
          pc.1 ≠ helper ∧ pc.2 ≠ helper)
  ∧ (f = ⟨false, false, false, false, false⟩ →
      with_temp_collection_link g coll helper f true = g) := by
  refine ⟨rfl, ?_, ?_⟩
  · intro hrf
    have hstep : with_temp_collection_link g coll helper f true
        = remove_datablock
            (exit_unlink_helper
              (exit_unlink_child (temp_link_enter g coll helper f) coll helper f)
              helper f) helper := by
      simp [with_temp_collection_link, temp_link_exit, exit_remove_helper, hrf]
    constructor
    · rw [hstep]
      simp only [remove_datablock, unlinks_preserve_datablocks,
        temp_link_enter_datablocks]
      rw [List.erase_append_right [helper] hdb, List.erase_cons_head]
      simpa using hdb
    · intro pc hpc
      rw [hstep] at hpc
      simp only [remove_datablock] at hpc
      have := List.of_mem_filter hpc
      simp only [Bool.and_eq_true, bne_iff_ne] at this
      exact this
  · intro hf
    subst hf
    have henter : temp_link_enter g coll helper ⟨false, false, false, false, false⟩
        = { datablocks := g.datablocks ++ [helper],
            links := (g.links ++ [(SCENE_ROOT, helper)]) ++ [(helper, coll)] } := by
      simp [temp_link_enter, add_link]
    have hnm1 : (helper, coll) ∉ g.links ++ [(SCENE_ROOT, helper)] := by
      intro hmem
      rcases List.mem_append.mp hmem with hmem | hmem
      · exact (hlk _ hmem).1 rfl
      · have : (helper, coll) = (SCENE_ROOT, helper) := by simpa using hmem
        exact hhr (congrArg Prod.fst this)
    have hnm2 : (SCENE_ROOT, helper) ∉ g.links := by
      intro hmem
      exact (hlk _ hmem).2 rfl
    simp only [with_temp_collection_link, henter, temp_link_exit, exit_unlink_child,
      exit_unlink_helper, exit_remove_helper, did_link_child_of, did_link_helper_of,
      remove_link, remove_datablock, Bool.not_false, Bool.and_self, if_true,
      if_false, Bool.false_eq_true]
    rw [List.erase_append_right [(helper, coll)] hnm1, List.erase_cons_head,
      List.append_nil, List.erase_append_right [(SCENE_ROOT, helper)] hnm2,
      List.erase_cons_head, List.append_nil,
      List.erase_append_right [helper] hdb, List.erase_cons_head, List.append_nil]
    have hfl : g.links.filter (fun pc => pc.1 != helper && pc.2 != helper) = g.links := by
      refine List.filter_eq_self.mpr ?_
      intro pc hpc
      simp [bne_iff_ne, (hlk pc hpc).1, (hlk pc hpc).2]
    rw [hfl]

/-- Witness for C4: a fully successful enter-evaluate-exit round trip on a
one-collection scene restores the graph exactly. -/
theorem c4_witness :
    with_temp_collection_link ⟨["AssetColl"], []⟩ "AssetColl" "__TMP_EVAL__"
        ⟨false, false, false, false, false⟩ true
      = ⟨["AssetColl"], []⟩ :=
  (c4_scratch_cleanup ⟨["AssetColl"], []⟩ "AssetColl" "__TMP_EVAL__"
    ⟨false, false, false, false, false⟩ (by decide) (by decide) (by decide)
    (by decide)).2.2 rfl

/-!
Transform Composer state (`ensure_empty_obj`, `ensure_instance_empty`,
`parent_keep_local`, `instance_collection_pivoted`).

The scene's object datablocks (`bpy.data.objects`) are a list of `BObj`.
`ensure_empty_obj` looks an object up by name and creates it only when
absent; `move_object_to_collection` unlinks it from every collection and
links it into the target, so its membership list becomes exactly the target.
`parent_keep_local` sets the parent (and resets the parent inverse to the
identity, which is implicit here: world transforms of chain nodes are
composed from parent world and local transform as in `instance_chain_world`).
The local rotation is recorded in degrees; the source stores the same angles
converted by `math.radians`. -/

structure Scene where
  objects : List BObj
deriving DecidableEq, Repr

/-- The names of the scene's objects, in datablock order. -/
def scene_names (s : Scene) : List String := s.objects.map (fun o => o.name)

/-- `bpy.data.objects.get(name)`. -/
def get_obj (s : Scene) (n : String) : Option BObj :=
  s.objects.find? (fun o => o.name == n)

/-- Replace the first object with the given name by its image under `f`. -/
def update_first : List BObj → String → (BObj → BObj) → List BObj
  | [], _, _ => []
  | o :: rest, n, f =>
    if o.name == n then f o :: rest else o :: update_first rest n f

/-- Update the (unique) object with the given name in place. -/
def update_obj (s : Scene) (n : String) (f : BObj → BObj) : Scene :=
  ⟨update_first s.objects n f⟩

/-- `move_object_to_collection`: after unlinking the object from all its
collections and linking it into the target, its memberships are exactly the
target. -/
def move_object_to_collection (s : Scene) (n target : String) : Scene :=
  update_obj s n (fun o => { o with coll_names := [target] })

/-- `ensure_empty_obj`: find by name or create, move into the target
collection, set plain-axes display. -/
def ensure_empty_obj (s : Scene) (n target : String) : Scene :=
  let s1 := if (get_obj s n).isSome then s else ⟨s.objects ++ [new_empty_bobj n]⟩
  let s2 := move_object_to_collection s1 n target
  update_obj s2 n (fun o => { o with empty_display_type := "PLAIN_AXES" })

/-- `ensure_instance_empty`: like `ensure_empty_obj` and additionally make
the node a collection instancer referencing the group. -/
def ensure_instance_empty (s : Scene) (n coll_name target : String) : Scene :=
  let s1 := if (get_obj s n).isSome then s else ⟨s.objects ++ [new_empty_bobj n]⟩
  let s2 := move_object_to_collection s1 n target
  update_obj s2 n (fun o =>
    { o with empty_display_type := "PLAIN_AXES", instance_type := "COLLECTION",
             instance_coll := some coll_name })

/-- `parent_keep_local`: set the parent, keeping the local transform. -/
def parent_keep_local (s : Scene) (child : String) (parent : Option String) : Scene :=
  update_obj s child (fun o => { o with parent_name := parent })

/-- Overwrite an object's local location, rotation and scale. -/
def set_local_transform (s : Scene) (n : String) (loc rot sc : V3) : Scene :=
  update_obj s n (fun o =>
    { o with location := loc, rotation_euler_deg := rot, scale := sc })

/-- The `scale` argument: a Python number or sequence. -/
inductive PyScale where
  | num (q : ℚ)
  | vec (l : List ℚ)
deriving DecidableEq, Repr

/-- `_as_scale_vec`: a number becomes a uniform scale; a sequence of length
other than three falls back to unit scale. -/
def as_scale_vec : PyScale → V3
  | .num q => ⟨q, q, q⟩
  | .vec l =>
    match l with
    | [a, b, c] => ⟨a, b, c⟩
    | _ => ⟨1, 1, 1⟩

/-- Shallow embedding of `instance_collection_pivoted`: resolve the anchor,
idempotently ensure the four chain nodes, re-parent them into the
PIV-ROT-OFF-INST chain, and overwrite their local transforms. -/
def instance_collection_pivoted (s : Scene) (slot : String) (coll : BColl)
    (location_mm rotation_deg : V3) (scale : PyScale) (parent_obj : Option String)
    (target : String) (spec : CompSpec) : Scene :=
  let anchor_offset := (choose_anchor_offset coll s.objects spec).1
  let s1 := ensure_empty_obj s ("PIV_" ++ slot) target
  let s2 := ensure_empty_obj s1 ("ROT_" ++ slot) target
  let s3 := ensure_empty_obj s2 ("OFF_" ++ slot) target
  let s4 := ensure_instance_empty s3 ("INST_" ++ slot) coll.cname target
  let s5 := parent_keep_local s4 ("PIV_" ++ slot) parent_obj
  let s6 := parent_keep_local s5 ("ROT_" ++ slot) (some ("PIV_" ++ slot))
  let s7 := parent_keep_local s6 ("OFF_" ++ slot) (some ("ROT_" ++ slot))
  let s8 := parent_keep_local s7 ("INST_" ++ slot) (some ("OFF_" ++ slot))
  let s9 := set_local_transform s8 ("PIV_" ++ slot) location_mm 0 ⟨1, 1, 1⟩
  let s10 := set_local_transform s9 ("ROT_" ++ slot) 0 rotation_deg (as_scale_vec scale)
  let s11 := set_local_transform s10 ("OFF_" ++ slot) (-anchor_offset) 0 ⟨1, 1, 1⟩
  set_local_transform s11 ("INST_" ++ slot) 0 0 ⟨1, 1, 1⟩

theorem update_first_map_name (l : List BObj) (n : String) (f : BObj → BObj)
    (hf : ∀ o, (f o).name = o.name) :
    (update_first l n f).map (fun o => o.name) = l.map (fun o => o.name) := by
  induction l with
  | nil => rfl
  | cons o rest ih =>
    cases h : (o.name == n) with
    | true => simp [update_first, h, hf o]
    | false => simp [update_first, h, ih]

theorem scene_names_update (s : Scene) (n : String) (f : BObj → BObj)
    (hf : ∀ o, (f o).name = o.name) :
    scene_names (update_obj s n f) = scene_names s := by
  simp [scene_names, update_obj, update_first_map_name _ _ _ hf]

theorem scene_names_move (s : Scene) (n target : String) :
    scene_names (move_object_to_collection s n target) = scene_names s :=
  scene_names_update _ _ _ (fun _ => rfl)

theorem scene_names_parent (s : Scene) (c : String) (p : Option String) :
    scene_names (parent_keep_local s c p) = scene_names s :=
  scene_names_update _ _ _ (fun _ => rfl)

theorem scene_names_set_local (s : Scene) (n : String) (loc rot sc : V3) :
    scene_names (set_local_transform s n loc rot sc) = scene_names s :=
  scene_names_update _ _ _ (fun _ => rfl)

theorem get_obj_isSome_iff (s : Scene) (n : String) :
    (get_obj s n).isSome ↔ n ∈ scene_names s := by
  rw [get_obj, List.find?_isSome]
  constructor
  · rintro ⟨o, ho, hp⟩
    have hn : o.name = n := by simpa using hp
    exact hn ▸ List.mem_map_of_mem _ ho
  · intro h
    rcases List.mem_map.mp h with ⟨o, ho, hname⟩
    exact ⟨o, ho, by simp [hname]⟩

/-- The effect of an idempotent ensure on the name list. -/
def name_added (ns : List String) (n : String) : List String :=
  if n ∈ ns then ns else ns ++ [n]

theorem mem_name_added_self (ns : List String) (n : String) : n ∈ name_added ns n := by
  unfold name_added
  by_cases h : n ∈ ns
  · simpa [h]
  · simp [h]

theorem mem_name_added_of_mem (ns : List String) (n m : String) (h : m ∈ ns) :
    m ∈ name_added ns n := by
  unfold name_added
  by_cases hn : n ∈ ns <;> simp [hn, h]

theorem name_added_of_mem (ns : List String) (n : String) (h : n ∈ ns) :
    name_added ns n = ns := by
  simp [name_added, h]

theorem name_added_nodup (ns : List String) (n : String) (h : ns.Nodup) :
    (name_added ns n).Nodup := by
  unfold name_added
  by_cases hn : n ∈ ns
  · simpa [hn]
  · simp only [hn, if_false]
    rw [List.nodup_append]
    exact ⟨h, List.nodup_singleton n, by
      intro a ha hb
      have : a = n := by simpa using hb
      exact hn (this ▸ ha)⟩

theorem scene_names_update_display (s : Scene) (n : String) :
    scene_names (update_obj s n (fun o => { o with empty_display_type := "PLAIN_AXES" }))
      = scene_names s :=
  scene_names_update _ _ _ (fun _ => rfl)

theorem scene_names_update_instance (s : Scene) (n cn : String) :
    scene_names (update_obj s n (fun o =>
        { o with empty_display_type := "PLAIN_AXES", instance_type := "COLLECTION",
                 instance_coll := some cn }))
      = scene_names s :=
  scene_names_update _ _ _ (fun _ => rfl)

theorem scene_names_ensure_empty (s : Scene) (n target : String) :
    scene_names (ensure_empty_obj s n target) = name_added (scene_names s) n := by
  simp only [ensure_empty_obj]
  rw [scene_names_update_display, scene_names_move, name_added]
  by_cases h : n ∈ scene_names s
  · have hs : (get_obj s n).isSome = true := (get_obj_isSome_iff s n).mpr h
    rw [if_pos hs, if_pos h]
  · have hs : ¬((get_obj s n).isSome = true) :=
      fun hc => h ((get_obj_isSome_iff s n).mp hc)
    rw [if_neg hs, if_neg h]
    simp [scene_names, new_empty_bobj]

theorem scene_names_ensure_instance (s : Scene) (n coll_name target : String) :
    scene_names (ensure_instance_empty s n coll_name target)
      = name_added (scene_names s) n := by
  simp only [ensure_instance_empty]
  rw [scene_names_update_instance, scene_names_move, name_added]
  by_cases h : n ∈ scene_names s
  · have hs : (get_obj s n).isSome = true := (get_obj_isSome_iff s n).mpr h
    rw [if_pos hs, if_pos h]
  · have hs : ¬((get_obj s n).isSome = true) :=
      fun hc => h ((get_obj_isSome_iff s n).mp hc)
    rw [if_neg hs, if_neg h]
    simp [scene_names, new_empty_bobj]

theorem scene_names_icp (s : Scene) (slot : String) (coll : BColl)
    (loc rot : V3) (scale : PyScale) (parent_obj : Option String)
    (target : String) (spec : CompSpec) :
    scene_names (instance_collection_pivoted s slot coll loc rot scale parent_obj target spec)
      = name_added (name_added (name_added (name_added (scene_names s)
          ("PIV_" ++ slot)) ("ROT_" ++ slot)) ("OFF_" ++ slot)) ("INST_" ++ slot) := by
  simp only [instance_collection_pivoted, scene_names_set_local, scene_names_parent,
    scene_names_ensure_instance, scene_names_ensure_empty]

theorem find?_update_first_self (l : List BObj) (n : String) (f : BObj → BObj)
    (hf : ∀ o, (f o).name = o.name) :
    (update_first l n f).find? (fun o => o.name == n)
      = (l.find? (fun o => o.name == n)).map f := by
  induction l with
  | nil => rfl
  | cons o rest ih =>
    cases h : (o.name == n) with
    | true => simp [update_first, h, List.find?_cons, hf o]
    | false => simp [update_first, h, List.find?_cons, ih]

theorem find?_update_first_other (l : List BObj) (n m : String) (f : BObj → BObj)
    (hf : ∀ o, (f o).name = o.name) (hne : m ≠ n) :
    (update_first l n f).find? (fun o => o.name == m)
      = l.find? (fun o => o.name == m) := by
  induction l with
  | nil => rfl
  | cons o rest ih =>
    cases h : (o.name == n) with
    | true =>
      have hon : o.name = n := by simpa using h
      have honm : (o.name == m) = false := by simp [hon, Ne.symm hne]
      simp [update_first, h, List.find?_cons, hf o, honm]
    | false => simp [update_first, h, List.find?_cons, ih]

theorem get_obj_update_self (s : Scene) (n : String) (f : BObj → BObj)
    (hf : ∀ o, (f o).name = o.name) :
    get_obj (update_obj s n f) n = (get_obj s n).map f :=
  find?_update_first_self s.objects n f hf

theorem get_obj_update_other (s : Scene) (n m : String) (f : BObj → BObj)
    (hf : ∀ o, (f o).name = o.name) (hne : m ≠ n) :
    get_obj (update_obj s n f) m = get_obj s m :=
  find?_update_first_other s.objects n m f hf hne

theorem get_obj_append (s : Scene) (o : BObj) (m : String) :
    get_obj ⟨s.objects ++ [o]⟩ m
      = match get_obj s m with
        | some x => some x
        | none => if o.name == m then some o else none := by
  show (s.objects ++ [o]).find? (fun x => x.name == m) = _
  rw [List.find?_append]
  cases h : get_obj s m with
  | some x => simp only [get_obj] at h; simp [h, Option.or]
  | none =>
    simp only [get_obj] at h
    cases ho : (o.name == m) with
    | true => simp [h, Option.or, List.find?_cons, ho]
    | false => simp [h, Option.or, List.find?_cons, ho]

theorem get_obj_exists_of_mem (s : Scene) (n : String) (h : n ∈ scene_names s) :
    ∃ o, get_obj s n = some o ∧ o.name = n := by
  have hs : (get_obj s n).isSome := (get_obj_isSome_iff s n).mpr h
  rcases Option.isSome_iff_exists.mp hs with ⟨o, ho⟩
  refine ⟨o, ho, ?_⟩
  have := List.find?_some ho
  simpa using this

theorem get_obj_ensure_base (s : Scene) (n : String) :
    ∃ o, get_obj (if (get_obj s n).isSome then s else ⟨s.objects ++ [new_empty_bobj n]⟩) n
        = some o ∧ o.name = n := by
  cases hs : (get_obj s n).isSome with
  | true =>
    rcases Option.isSome_iff_exists.mp hs with ⟨o, ho⟩
    refine ⟨o, ?_, ?_⟩
    · simp [hs, ho]
    · have := List.find?_some ho
      simpa using this
  | false =>
    have hnone : get_obj s n = none := by
      cases hg : get_obj s n
      · rfl
      · rw [hg] at hs; cases hs
    refine ⟨new_empty_bobj n, ?_, rfl⟩
    simp only [hs, Bool.false_eq_true, if_false]
    rw [get_obj_append]
    simp [hnone, new_empty_bobj]

theorem get_obj_move_self (s : Scene) (n t : String) :
    get_obj (move_object_to_collection s n t) n
      = (get_obj s n).map (fun o => { o with coll_names := [t] }) :=
  get_obj_update_self _ _ _ (fun _ => rfl)

theorem get_obj_move_other (s : Scene) (n t m : String) (hne : m ≠ n) :
    get_obj (move_object_to_collection s n t) m = get_obj s m :=
  get_obj_update_other _ _ _ _ (fun _ => rfl) hne

theorem get_obj_display_self (s : Scene) (n : String) :
    get_obj (update_obj s n (fun o => { o with empty_display_type := "PLAIN_AXES" })) n
      = (get_obj s n).map (fun o => { o with empty_display_type := "PLAIN_AXES" }) :=
  get_obj_update_self _ _ _ (fun _ => rfl)

theorem get_obj_display_other (s : Scene) (n m : String) (hne : m ≠ n) :
    get_obj (update_obj s n (fun o => { o with empty_display_type := "PLAIN_AXES" })) m
      = get_obj s m :=
  get_obj_update_other _ _ _ _ (fun _ => rfl) hne

theorem get_obj_instupd_self (s : Scene) (n cn : String) :
    get_obj (update_obj s n (fun o =>
        { o with empty_display_type := "PLAIN_AXES", instance_type := "COLLECTION",
                 instance_coll := some cn })) n
      = (get_obj s n).map (fun o =>
          { o with empty_display_type := "PLAIN_AXES", instance_type := "COLLECTION",
                   instance_coll := some cn }) :=
  get_obj_update_self _ _ _ (fun _ => rfl)

theorem get_obj_instupd_other (s : Scene) (n cn m : String) (hne : m ≠ n) :
    get_obj (update_obj s n (fun o =>
        { o with empty_display_type := "PLAIN_AXES", instance_type := "COLLECTION",
                 instance_coll := some cn })) m
      = get_obj s m :=
  get_obj_update_other _ _ _ _ (fun _ => rfl) hne

theorem get_obj_parent_self (s : Scene) (c : String) (p : Option String) :
    get_obj (parent_keep_local s c p) c
      = (get_obj s c).map (fun o => { o with parent_name := p }) :=
  get_obj_update_self _ _ _ (fun _ => rfl)

theorem get_obj_parent_other (s : Scene) (c : String) (p : Option String)
    (m : String) (hne : m ≠ c) :
    get_obj (parent_keep_local s c p) m = get_obj s m :=
  get_obj_update_other _ _ _ _ (fun _ => rfl) hne

theorem get_obj_set_local_self (s : Scene) (n : String) (loc rot sc : V3) :
    get_obj (set_local_transform s n loc rot sc) n
      = (get_obj s n).map (fun o =>
          { o with location := loc, rotation_euler_deg := rot, scale := sc }) :=
  get_obj_update_self _ _ _ (fun _ => rfl)

theorem get_obj_set_local_other (s : Scene) (n : String) (loc rot sc : V3)
    (m : String) (hne : m ≠ n) :
    get_obj (set_local_transform s n loc rot sc) m = get_obj s m :=
  get_obj_update_other _ _ _ _ (fun _ => rfl) hne

theorem get_obj_ensure_empty_self (s : Scene) (n target : String) :
    ∃ o, get_obj (ensure_empty_obj s n target) n = some o ∧ o.name = n
      ∧ o.empty_display_type = "PLAIN_AXES" ∧ o.coll_names = [target] := by
  simp only [ensure_empty_obj]
  obtain ⟨o0, ho0, hname⟩ := get_obj_ensure_base s n
  rw [get_obj_display_self, get_obj_move_self, ho0]
  exact ⟨_, rfl, by simp [hname], rfl, rfl⟩

theorem get_obj_ensure_empty_other (s : Scene) (n target m : String) (hne : m ≠ n) :
    get_obj (ensure_empty_obj s n target) m = get_obj s m := by
  simp only [ensure_empty_obj]
  rw [get_obj_display_other _ _ _ hne, get_obj_move_other _ _ _ _ hne]
  cases hs : (get_obj s n).isSome with
  | true => simp [hs]
  | false =>
    simp only [hs, Bool.false_eq_true, if_false]
    rw [get_obj_append]
    cases hg : get_obj s m with
    | some x => simp [hg]
    | none => simp [hg, new_empty_bobj, Ne.symm hne]

theorem get_obj_ensure_instance_self (s : Scene) (n cn target : String) :
    ∃ o, get_obj (ensure_instance_empty s n cn target) n = some o ∧ o.name = n
      ∧ o.instance_type = "COLLECTION" ∧ o.instance_coll = some cn := by
  simp only [ensure_instance_empty]
  obtain ⟨o0, ho0, hname⟩ := get_obj_ensure_base s n
  rw [get_obj_instupd_self, get_obj_move_self, ho0]
  exact ⟨_, rfl, by simp [hname], rfl, rfl⟩

theorem get_obj_ensure_instance_other (s : Scene) (n cn target m : String)
    (hne : m ≠ n) :
    get_obj (ensure_instance_empty s n cn target) m = get_obj s m := by
  simp only [ensure_instance_empty]
  rw [get_obj_instupd_other _ _ _ _ hne, get_obj_move_other _ _ _ _ hne]
  cases hs : (get_obj s n).isSome with
  | true => simp [hs]
  | false =>
    simp only [hs, Bool.false_eq_true, if_false]
    rw [get_obj_append]
    cases hg : get_obj s m with
    | some x => simp [hg]
    | none => simp [hg, new_empty_bobj, Ne.symm hne]

theorem slot_chain_names_distinct (slot : String) :
    ("PIV_" ++ slot) ≠ ("ROT_" ++ slot) ∧ ("PIV_" ++ slot) ≠ ("OFF_" ++ slot)
  ∧ ("PIV_" ++ slot) ≠ ("INST_" ++ slot) ∧ ("ROT_" ++ slot) ≠ ("OFF_" ++ slot)
  ∧ ("ROT_" ++ slot) ≠ ("INST_" ++ slot) ∧ ("OFF_" ++ slot) ≠ ("INST_" ++ slot) := by
  have hd : ∀ a b : String, (a ++ b).data = a.data ++ b.data := fun a b => rfl
  refine ⟨?_, ?_, ?_, ?_, ?_, ?_⟩ <;>
  · intro h
    have h2 := congrArg String.data h
    rw [hd, hd] at h2
    simp at h2

/-- C5. Placing the same slot twice yields exactly one four-node chain: the
object-name list is unchanged by the second call (no node is created twice),
the name list stays duplicate-free with each of the four stable derived
names occurring exactly once, and after a call the four nodes are found by
name with the PIV-ROT-OFF-INST parenting and the freshly overwritten local
transforms (the instancer referencing the group). -/
theorem c5_idempotent_rebuild (s : Scene) (slot : String) (coll : BColl)
    (loc rot : V3) (scale : PyScale) (parent_obj : Option String)
    (target : String) (spec : CompSpec)
    (hnd : (scene_names s).Nodup) :
    scene_names (instance_collection_pivoted
        (instance_collection_pivoted s slot coll loc rot scale parent_obj target spec)
        slot coll loc rot scale parent_obj target spec)
      = scene_names
          (instance_collection_pivoted s slot coll loc rot scale parent_obj target spec)
  ∧ (scene_names
      (instance_collection_pivoted s slot coll loc rot scale parent_obj target spec)).Nodup
  ∧ (∀ nm ∈ (["PIV_" ++ slot, "ROT_" ++ slot, "OFF_" ++ slot, "INST_" ++ slot] : List String),
      (scene_names
        (instance_collection_pivoted s slot coll loc rot scale parent_obj target spec)).count nm
        = 1)
  ∧ (∃ o, get_obj (instance_collection_pivoted s slot coll loc rot scale parent_obj target spec)
        ("PIV_" ++ slot) = some o
      ∧ o.parent_name = parent_obj ∧ o.location = loc)
  ∧ (∃ o, get_obj (instance_collection_pivoted s slot coll loc rot scale parent_obj target spec)
        ("ROT_" ++ slot) = some o
      ∧ o.parent_name = some ("PIV_" ++ slot)
      ∧ o.rotation_euler_deg = rot ∧ o.scale = as_scale_vec scale)
  ∧ (∃ o, get_obj (instance_collection_pivoted s slot coll loc rot scale parent_obj target spec)
        ("OFF_" ++ slot) = some o
      ∧ o.parent_name = some ("ROT_" ++ slot)
      ∧ o.location = -(choose_anchor_offset coll s.objects spec).1)
  ∧ (∃ o, get_obj (instance_collection_pivoted s slot coll loc rot scale parent_obj target spec)
        ("INST_" ++ slot) = some o
      ∧ o.parent_name = some ("OFF_" ++ slot)
      ∧ o.instance_type = "COLLECTION" ∧ o.instance_coll = some coll.cname) := by
  obtain ⟨d12, d13, d14, d23, d24, d34⟩ := slot_chain_names_distinct slot
  have hnames := scene_names_icp s slot coll loc rot scale parent_obj target spec
  have hPmem : ("PIV_" ++ slot) ∈ scene_names
      (instance_collection_pivoted s slot coll loc rot scale parent_obj target spec) := by
    rw [hnames]
    exact mem_name_added_of_mem _ _ _ (mem_name_added_of_mem _ _ _
      (mem_name_added_of_mem _ _ _ (mem_name_added_self _ _)))
  have hRmem : ("ROT_" ++ slot) ∈ scene_names
      (instance_collection_pivoted s slot coll loc rot scale parent_obj target spec) := by
    rw [hnames]
    exact mem_name_added_of_mem _ _ _ (mem_name_added_of_mem _ _ _
      (mem_name_added_self _ _))
  have hOmem : ("OFF_" ++ slot) ∈ scene_names
      (instance_collection_pivoted s slot coll loc rot scale parent_obj target spec) := by
    rw [hnames]
    exact mem_name_added_of_mem _ _ _ (mem_name_added_self _ _)
  have hImem : ("INST_" ++ slot) ∈ scene_names
      (instance_collection_pivoted s slot coll loc rot scale parent_obj target spec) := by
    rw [hnames]
    exact mem_name_added_self _ _
  have hnodup : (scene_names
      (instance_collection_pivoted s slot coll loc rot scale parent_obj target spec)).Nodup := by
    rw [hnames]
    exact name_added_nodup _ _ (name_added_nodup _ _ (name_added_nodup _ _
      (name_added_nodup _ _ hnd)))
  refine ⟨?_, hnodup, ?_, ?_, ?_, ?_, ?_⟩
  · rw [scene_names_icp, name_added_of_mem _ _ hPmem, name_added_of_mem _ _ hRmem,
      name_added_of_mem _ _ hOmem, name_added_of_mem _ _ hImem]
  · intro nm hnm
    have hmem : nm ∈ scene_names
        (instance_collection_pivoted s slot coll loc rot scale parent_obj target spec) := by
      simp only [List.mem_cons, List.not_mem_nil, or_false] at hnm
      rcases hnm with rfl | rfl | rfl | rfl
      · exact hPmem
      · exact hRmem
      · exact hOmem
      · exact hImem
    exact List.count_eq_one_of_mem hnodup hmem
  · obtain ⟨o0, ho0, hname0, hdisp0, hcoll0⟩ :=
      get_obj_ensure_empty_self s ("PIV_" ++ slot) target
    simp only [instance_collection_pivoted]
    rw [get_obj_set_local_other _ _ _ _ _ _ d14,
        get_obj_set_local_other _ _ _ _ _ _ d13,
        get_obj_set_local_other _ _ _ _ _ _ d12,
        get_obj_set_local_self,
        get_obj_parent_other _ _ _ _ d14,
        get_obj_parent_other _ _ _ _ d13,
        get_obj_parent_other _ _ _ _ d12,
        get_obj_parent_self,
        get_obj_ensure_instance_other _ _ _ _ _ d14,
        get_obj_ensure_empty_other _ _ _ _ d13,
        get_obj_ensure_empty_other _ _ _ _ d12,
        ho0]
    exact ⟨_, rfl, rfl, rfl⟩
  · obtain ⟨o0, ho0, hname0, hdisp0, hcoll0⟩ :=
      get_obj_ensure_empty_self (ensure_empty_obj s ("PIV_" ++ slot) target)
        ("ROT_" ++ slot) target
    simp only [instance_collection_pivoted]
    rw [get_obj_set_local_other _ _ _ _ _ _ d24,
        get_obj_set_local_other _ _ _ _ _ _ d23,
        get_obj_set_local_self,
        get_obj_set_local_other _ _ _ _ _ _ (Ne.symm d12),
        get_obj_parent_other _ _ _ _ d24,
        get_obj_parent_other _ _ _ _ d23,
        get_obj_parent_self,
        get_obj_parent_other _ _ _ _ (Ne.symm d12),
        get_obj_ensure_instance_other _ _ _ _ _ d24,
        get_obj_ensure_empty_other _ _ _ _ d23,
        ho0]
    exact ⟨_, rfl, rfl, rfl, rfl⟩
  · obtain ⟨o0, ho0, hname0, hdisp0, hcoll0⟩ :=
      get_obj_ensure_empty_self
        (ensure_empty_obj (ensure_empty_obj s ("PIV_" ++ slot) target)
          ("ROT_" ++ slot) target)
        ("OFF_" ++ slot) target
    simp only [instance_collection_pivoted]
    rw [get_obj_set_local_other _ _ _ _ _ _ d34,
        get_obj_set_local_self,
        get_obj_set_local_other _ _ _ _ _ _ (Ne.symm d23),
        get_obj_set_local_other _ _ _ _ _ _ (Ne.symm d13),
        get_obj_parent_other _ _ _ _ d34,
        get_obj_parent_self,
        get_obj_parent_other _ _ _ _ (Ne.symm d23),
        get_obj_parent_other _ _ _ _ (Ne.symm d13),
        get_obj_ensure_instance_other _ _ _ _ _ d34,
        ho0]
    exact ⟨_, rfl, rfl, rfl⟩
  · obtain ⟨o0, ho0, hname0, htype0, hcoll0⟩ :=
      get_obj_ensure_instance_self
        (ensure_empty_obj (ensure_empty_obj (ensure_empty_obj s ("PIV_" ++ slot) target)
          ("ROT_" ++ slot) target) ("OFF_" ++ slot) target)
        ("INST_" ++ slot) coll.cname target
    simp only [instance_collection_pivoted]
    rw [get_obj_set_local_self,
        get_obj_set_local_other _ _ _ _ _ _ (Ne.symm d34),
        get_obj_set_local_other _ _ _ _ _ _ (Ne.symm d24),
        get_obj_set_local_other _ _ _ _ _ _ (Ne.symm d14),
        get_obj_parent_self,
        get_obj_parent_other _ _ _ _ (Ne.symm d34),
        get_obj_parent_other _ _ _ _ (Ne.symm d24),
        get_obj_parent_other _ _ _ _ (Ne.symm d14),
        ho0]
    exact ⟨_, rfl, rfl, htype0, hcoll0⟩

/-- Witness for C5: building the slot twice into an empty scene leaves the
same four-node name list as building it once. -/
theorem c5_witness :
    scene_names (instance_collection_pivoted
        (instance_collection_pivoted ⟨[]⟩ "slotA" ⟨"C", [], []⟩ ⟨1, 2, 3⟩ 0
          (PyScale.num 1) none "COMPONENTS" CompSpec.empty)
        "slotA" ⟨"C", [], []⟩ ⟨1, 2, 3⟩ 0 (PyScale.num 1) none "COMPONENTS" CompSpec.empty)
      = scene_names (instance_collection_pivoted ⟨[]⟩ "slotA" ⟨"C", [], []⟩ ⟨1, 2, 3⟩ 0
          (PyScale.num 1) none "COMPONENTS" CompSpec.empty) :=
  (c5_idempotent_rebuild ⟨[]⟩ "slotA" ⟨"C", [], []⟩ ⟨1, 2, 3⟩ 0 (PyScale.num 1) none
    "COMPONENTS" CompSpec.empty (by decide)).1
